import Mathlib

/-!
Verification of the marketing-performance dashboard's aggregation and
visualization core, as a shallow embedding in Lean.

Conventions of the embedding:
- JavaScript numbers are modelled by the rationals; performance counters
  (impressions, clicks, conversions) are naturals, matching the data model.
- A JavaScript object used as a string-keyed dictionary is modelled by an
  insertion-ordered association list: updating an existing key keeps its
  position, a new key is appended at the end (JS string-key iteration order).
- Array.prototype.sort with a numeric comparator is modelled by a stable
  structural insertion sort (ECMAScript sort is stable).
- String.prototype.toLowerCase and String.prototype.split are modelled on the
  character lists of strings (ASCII case mapping, which covers every grouping
  key in the dataset).
- The one place where a division can produce an IEEE NaN or infinity
  (the line-chart x scale) is modelled with an explicit JsNum type carrying
  nan and signed infinities; everywhere else the code guards the denominator
  and plain rationals are faithful.
-/

/-! ## Data model (src/types/marketing, as used by the pages) -/

/-- Performance counters embedded in every demographic sub-record. -/
structure Performance where
  impressions : ℕ
  clicks : ℕ
  conversions : ℕ
deriving DecidableEq

/-- One demographic sub-record of a campaign. -/
structure DemographicBreakdown where
  gender : String
  age_group : String
  performance : Performance
deriving DecidableEq

/-- One device sub-record of a campaign; the aggregated per-device summary
reuses the same shape (as in the source, which accumulates into the same
record type). -/
structure DevicePerformance where
  device : String
  impressions : ℕ
  clicks : ℕ
  conversions : ℕ
  spend : ℚ
  revenue : ℚ
  ctr : ℚ
  conversion_rate : ℚ
  percentage_of_traffic : ℚ
deriving DecidableEq

/-- One regional sub-record of a campaign. -/
structure RegionalPerformance where
  region : String
  country : String
  spend : ℚ
  revenue : ℚ
deriving DecidableEq

/-- One weekly sub-record of a campaign. -/
structure WeeklyPerformance where
  week_start : String
  week_end : String
  spend : ℚ
  revenue : ℚ
deriving DecidableEq

/-- A marketing campaign with its campaign-level totals and breakdowns. -/
structure Campaign where
  spend : ℚ := 0
  revenue : ℚ := 0
  demographic_breakdown : List DemographicBreakdown := []
  device_performance : List DevicePerformance := []
  regional_performance : List RegionalPerformance := []
  weekly_performance : List WeeklyPerformance := []
deriving DecidableEq

/-! ## String helpers: models of the JavaScript string operations used -/

/-- ASCII case mapping of a single character, the fragment of the Unicode
lowercase mapping exercised by the grouping keys of this dataset. -/
def asciiToLower (c : Char) : Char :=
  if 65 ≤ c.toNat ∧ c.toNat ≤ 90 then Char.ofNat (c.toNat + 32) else c

/-- Model of String.prototype.toLowerCase restricted to ASCII. -/
def jsToLower (s : String) : String :=
  String.mk (s.data.map asciiToLower)

/-- Characters strictly before the first occurrence of the separator,
the character-level content of s.split(sep)[0]. -/
def takeUntilSep (sep : List Char) : List Char → List Char
  | [] => []
  | c :: rest => if sep.isPrefixOf (c :: rest) then [] else c :: takeUntilSep sep rest

/-- Characters strictly after the first occurrence of the separator. -/
def afterFirstSep (sep : List Char) : List Char → List Char
  | [] => []
  | c :: rest =>
    if sep.isPrefixOf (c :: rest) then (c :: rest).drop sep.length
    else afterFirstSep sep rest

/-- Value of a string of decimal digits, the content of Number parsing on the
date fields. -/
def digitsToNat (l : List Char) : ℕ :=
  l.foldl (fun n c => n * 10 + (c.toNat - 48)) 0

/-! ## Insertion-ordered string-keyed maps (JS object dictionaries) -/

/-- Update the entry at a key of an insertion-ordered association list, or
append a fresh entry at the end: the access pattern
m[k] = f(m[k] exists ? m[k] : init) on a JS object. -/
def upsert (k : String) (f : β → β) (init : β) : List (String × β) → List (String × β)
  | [] => [(k, f init)]
  | (k0, v) :: rest =>
    if k0 = k then (k0, f v) :: rest else (k0, v) :: upsert k f init rest

/-! ## Stable sort: model of Array.prototype.sort with a numeric comparator -/

/-- Insert an element after every already-placed element that compares
less-or-equal to it, keeping ties in their original order. -/
def stableInsert (le : α → α → Bool) (x : α) : List α → List α
  | [] => [x]
  | y :: ys => if le y x then y :: stableInsert le x ys else x :: y :: ys

/-- Stable sort by a boolean less-or-equal relation, the behavior of the
ECMAScript stable Array.prototype.sort when the comparator is consistent. -/
def stableSort (le : α → α → Bool) (l : List α) : List α :=
  l.foldl (fun acc x => stableInsert le x acc) []

/-! ## Metric primitives (spec 4.1; inline ternaries in the pages) -/

/-- Click-through rate: impressions > 0 ? clicks / impressions * 100 : 0. -/
def ctr (clicks impressions : ℚ) : ℚ :=
  if 0 < impressions then clicks / impressions * 100 else 0

/-- Conversion rate: clicks > 0 ? conversions / clicks * 100 : 0. -/
def conversionRate (conversions clicks : ℚ) : ℚ :=
  if 0 < clicks then conversions / clicks * 100 else 0

/-! ## Demographic aggregation (demographic view, demographicMetrics) -/

/-- Accumulator of the demographic forEach loops: dataset-wide click total,
per-gender click totals, the clicks-by-age-group dictionary and the two
per-gender age-group dictionaries. -/
structure DemoState where
  totalClicks : ℕ
  maleClicks : ℕ
  femaleClicks : ℕ
  ageGroupClicks : List (String × ℕ)
  maleAgeGroupData : List (String × Performance)
  femaleAgeGroupData : List (String × Performance)
deriving DecidableEq

/-- Empty accumulator. -/
def initDemoState : DemoState := ⟨0, 0, 0, [], [], []⟩

/-- Add a sub-record's counters onto an age-group accumulator entry. -/
def addPerf (p : Performance) (acc : Performance) : Performance :=
  ⟨acc.impressions + p.impressions, acc.clicks + p.clicks, acc.conversions + p.conversions⟩

/-- One iteration of the inner demographic loop: always add the clicks to the
dataset total and to the age-group dictionary; add to the male or female
rollup only when the lower-cased gender matches exactly. -/
def demoStep (st : DemoState) (d : DemographicBreakdown) : DemoState :=
  let clicks := d.performance.clicks
  if jsToLower d.gender = "male" then
    { totalClicks := st.totalClicks + clicks
      maleClicks := st.maleClicks + clicks
      femaleClicks := st.femaleClicks
      ageGroupClicks := upsert d.age_group (fun n => n + clicks) 0 st.ageGroupClicks
      maleAgeGroupData := upsert d.age_group (addPerf d.performance) ⟨0, 0, 0⟩ st.maleAgeGroupData
      femaleAgeGroupData := st.femaleAgeGroupData }
  else if jsToLower d.gender = "female" then
    { totalClicks := st.totalClicks + clicks
      maleClicks := st.maleClicks
      femaleClicks := st.femaleClicks + clicks
      ageGroupClicks := upsert d.age_group (fun n => n + clicks) 0 st.ageGroupClicks
      maleAgeGroupData := st.maleAgeGroupData
      femaleAgeGroupData := upsert d.age_group (addPerf d.performance) ⟨0, 0, 0⟩ st.femaleAgeGroupData }
  else
    { totalClicks := st.totalClicks + clicks
      maleClicks := st.maleClicks
      femaleClicks := st.femaleClicks
      ageGroupClicks := upsert d.age_group (fun n => n + clicks) 0 st.ageGroupClicks
      maleAgeGroupData := st.maleAgeGroupData
      femaleAgeGroupData := st.femaleAgeGroupData }

/-- The nested forEach over campaigns and their demographic breakdowns. -/
def demoFold (campaigns : List Campaign) : DemoState :=
  campaigns.foldl (fun st c => c.demographic_breakdown.foldl demoStep st) initDemoState

/-- Sum of campaign-level spend across all campaigns. -/
def totalSpend (campaigns : List Campaign) : ℚ :=
  (campaigns.map (fun c => c.spend)).sum

/-- Sum of campaign-level revenue across all campaigns. -/
def totalRevenue (campaigns : List Campaign) : ℚ :=
  (campaigns.map (fun c => c.revenue)).sum

/-- One row of the spend/revenue-by-age-group result. -/
structure AgeGroupRow where
  ageGroup : String
  clicks : ℕ
  spend : ℚ
  revenue : ℚ
deriving DecidableEq

/-- The proportional allocation of the dataset-wide spend and revenue across
age groups by click share, sorted by clicks descending. -/
def ageGroupData (campaigns : List Campaign) : List AgeGroupRow :=
  let st := demoFold campaigns
  let rows := st.ageGroupClicks.map (fun kv =>
    let share : ℚ :=
      if 0 < st.totalClicks then (kv.2 : ℚ) / (st.totalClicks : ℚ) else 0
    ⟨kv.1, kv.2, totalSpend campaigns * share, totalRevenue campaigns * share⟩)
  stableSort (fun a b => decide (b.clicks ≤ a.clicks)) rows

/-- One row of a per-gender age-group table. -/
structure GenderTableRow where
  ageGroup : String
  impressions : ℕ
  clicks : ℕ
  conversions : ℕ
  ctr : ℚ
  conversionRate : ℚ
deriving DecidableEq

/-- Table rows derived from a per-gender age-group dictionary, with the rates
recomputed from the aggregated counters, sorted by clicks descending. -/
def genderTable (m : List (String × Performance)) : List GenderTableRow :=
  stableSort (fun a b => decide (b.clicks ≤ a.clicks))
    (m.map (fun kv =>
      ⟨kv.1, kv.2.impressions, kv.2.clicks, kv.2.conversions,
        ctr (kv.2.clicks : ℚ) (kv.2.impressions : ℚ),
        conversionRate (kv.2.conversions : ℚ) (kv.2.clicks : ℚ)⟩))

/-- Result record of demographicMetrics. -/
structure DemographicMetrics where
  maleClicks : ℕ
  femaleClicks : ℕ
  maleSpend : ℚ
  femaleSpend : ℚ
  maleRevenue : ℚ
  femaleRevenue : ℚ
  ageGroupData : List AgeGroupRow
  maleTableData : List GenderTableRow
  femaleTableData : List GenderTableRow

/-- The demographic view's aggregation pass. -/
def demographicMetrics (campaigns : List Campaign) : DemographicMetrics :=
  let st := demoFold campaigns
  let maleShare : ℚ :=
    if 0 < st.totalClicks then (st.maleClicks : ℚ) / (st.totalClicks : ℚ) else 0
  let femaleShare : ℚ :=
    if 0 < st.totalClicks then (st.femaleClicks : ℚ) / (st.totalClicks : ℚ) else 0
  { maleClicks := st.maleClicks
    femaleClicks := st.femaleClicks
    maleSpend := totalSpend campaigns * maleShare
    femaleSpend := totalSpend campaigns * femaleShare
    maleRevenue := totalRevenue campaigns * maleShare
    femaleRevenue := totalRevenue campaigns * femaleShare
    ageGroupData := ageGroupData campaigns
    maleTableData := genderTable st.maleAgeGroupData
    femaleTableData := genderTable st.femaleAgeGroupData }

/-! ## Device aggregation (device view, deviceMetrics) -/

/-- Fresh dictionary entry created when a device key is first seen; the
device field keeps the first-seen spelling. -/
def freshDeviceEntry (name : String) : DevicePerformance :=
  ⟨name, 0, 0, 0, 0, 0, 0, 0, 0⟩

/-- Accumulate one device sub-record onto a dictionary entry: counters, spend
and revenue are added; percentage_of_traffic is overwritten. -/
def applyDevice (d : DevicePerformance) (e : DevicePerformance) : DevicePerformance :=
  { e with
    impressions := e.impressions + d.impressions
    clicks := e.clicks + d.clicks
    conversions := e.conversions + d.conversions
    spend := e.spend + d.spend
    revenue := e.revenue + d.revenue
    percentage_of_traffic := d.percentage_of_traffic }

/-- One iteration of the device forEach: group by lower-cased device label. -/
def deviceStep (m : List (String × DevicePerformance)) (d : DevicePerformance) :
    List (String × DevicePerformance) :=
  upsert (jsToLower d.device) (applyDevice d) (freshDeviceEntry d.device) m

/-- The post-pass that recomputes CTR and conversion rate from the
aggregated counters of every entry. -/
def recalcDevice (e : DevicePerformance) : DevicePerformance :=
  { e with
    ctr := ctr (e.clicks : ℚ) (e.impressions : ℚ)
    conversion_rate := conversionRate (e.conversions : ℚ) (e.clicks : ℚ) }

/-- The device view's aggregation pass: nested forEach over campaigns and
device sub-records, then the rate recomputation over every entry. -/
def deviceAgg (campaigns : List Campaign) : List (String × DevicePerformance) :=
  (campaigns.foldl (fun m c => c.device_performance.foldl deviceStep m) []).map
    (fun kv => (kv.1, recalcDevice kv.2))

/-- The mobile and desktop summaries the page reads out of the dictionary. -/
def deviceMetrics (campaigns : List Campaign) :
    Option DevicePerformance × Option DevicePerformance :=
  (List.lookup "mobile" (deviceAgg campaigns), List.lookup "desktop" (deviceAgg campaigns))

/-- All device sub-records of the dataset in iteration order. -/
def deviceRecords (campaigns : List Campaign) : List DevicePerformance :=
  campaigns.flatMap (fun c => c.device_performance)

/-- The device sub-records that fall into a given lower-cased key. -/
def recordsFor (key : String) (campaigns : List Campaign) : List DevicePerformance :=
  (deviceRecords campaigns).filter (fun d => decide (jsToLower d.device = key))

/-- percentage_of_traffic of the last record of a list, or a default. -/
def lastPot (rs : List DevicePerformance) (dflt : ℚ) : ℚ :=
  match rs.getLast? with
  | some d => d.percentage_of_traffic
  | none => dflt

/-! ## Weekly aggregation (weekly view, weeklyChartData) -/

/-- Dictionary value of the weekly rollup. -/
structure WeekAgg where
  spend : ℚ
  revenue : ℚ
  weekLabel : String
deriving DecidableEq

/-- Grouping key of a weekly sub-record: week_start to week_end. -/
def weekKey (w : WeeklyPerformance) : String :=
  w.week_start ++ " to " ++ w.week_end

/-- One iteration of the weekly forEach. -/
def weeklyStep (m : List (String × WeekAgg)) (w : WeeklyPerformance) :
    List (String × WeekAgg) :=
  upsert (weekKey w)
    (fun a => { a with spend := a.spend + w.spend, revenue := a.revenue + w.revenue })
    ⟨0, 0, weekKey w⟩ m

/-- The nested forEach over campaigns and weekly sub-records. -/
def weeklyPairs (campaigns : List Campaign) : List (String × WeekAgg) :=
  campaigns.foldl (fun m c => c.weekly_performance.foldl weeklyStep m) []

/-- label.split(" to ")[0]: the start-date half of a week label. -/
def weekStartOf (label : String) : String :=
  String.mk (takeUntilSep " to ".data label.data)

/-- Year, month and day fields of an ISO yyyy-mm-dd calendar-date string. -/
def parseYMD (s : String) : ℤ × ℤ × ℤ :=
  let cs := s.data
  let y := digitsToNat (takeUntilSep "-".data cs)
  let rest := afterFirstSep "-".data cs
  let m := digitsToNat (takeUntilSep "-".data rest)
  let d := digitsToNat (afterFirstSep "-".data rest)
  ((y : ℤ), (m : ℤ), (d : ℤ))

/-- Days from the Unix epoch to a proleptic-Gregorian civil date, the day
count underlying ECMAScript Date.getTime for ISO calendar-date strings. -/
def daysFromCivil (y m d : ℤ) : ℤ :=
  let y1 : ℤ := if m ≤ 2 then y - 1 else y
  let era : ℤ := (if 0 ≤ y1 then y1 else y1 - 399) / 400
  let yoe : ℤ := y1 - era * 400
  let mp : ℤ := (m + 9) % 12
  let doy : ℤ := (153 * mp + 2) / 5 + d - 1
  let doe : ℤ := yoe * 365 + yoe / 4 - yoe / 100 + doy
  era * 146097 + doe - 719468

/-- Model of new Date(s).getTime() for ISO yyyy-mm-dd strings: milliseconds
since the Unix epoch. -/
def dateMs (s : String) : ℤ :=
  let p := parseYMD s
  daysFromCivil p.1 p.2.1 p.2.2 * 86400000

/-- The weekly dictionary values sorted ascending by the parsed start date,
with the comparator of the source (difference of the two getTime values). -/
def sortedWeeks (campaigns : List Campaign) : List WeekAgg :=
  stableSort
    (fun a b => decide (dateMs (weekStartOf a.weekLabel) ≤ dateMs (weekStartOf b.weekLabel)))
    ((weeklyPairs campaigns).map (fun kv => kv.2))

/-- A chart input point. -/
structure ChartPoint where
  label : String
  value : ℚ
deriving DecidableEq

/-- The weekly spend series handed to the line chart. -/
def weeklySpendData (campaigns : List Campaign) : List ChartPoint :=
  (sortedWeeks campaigns).map (fun w => ⟨weekStartOf w.weekLabel, w.spend⟩)

/-- The weekly revenue series handed to the line chart. -/
def weeklyRevenueData (campaigns : List Campaign) : List ChartPoint :=
  (sortedWeeks campaigns).map (fun w => ⟨weekStartOf w.weekLabel, w.revenue⟩)

/-! ## Regional coordinate lookup (region view and heat map) -/

/-- The static region-name to coordinate table of the source. -/
def uaeCoordinates : List (String × ℚ × ℚ) :=
  [("Dubai", 25.2048, 55.2708),
   ("Sharjah", 25.3463, 55.4209),
   ("Abu Dhabi", 24.4539, 54.3773),
   ("Ajman", 25.4052, 55.5136),
   ("Ras Al Khaimah", 25.6741, 55.9804),
   ("Fujairah", 25.1288, 56.3265),
   ("Umm Al Quwain", 25.5653, 55.5533),
   ("Al Ain", 24.1302, 55.8023),
   ("Riyadh", 24.7136, 46.6753),
   ("Jeddah", 21.4858, 39.1925),
   ("Doha", 25.2854, 51.5310),
   ("Muscat", 23.5880, 58.3829),
   ("Manama", 26.2235, 50.5876),
   ("Kuwait City", 29.3759, 47.9774),
   ("Cairo", 30.0444, 31.2357),
   ("London", 51.5074, -0.1278),
   ("New York", 40.7128, -74.0060),
   ("Tokyo", 35.6762, 139.6503),
   ("Singapore", 1.3521, 103.8198),
   ("Mumbai", 19.0760, 72.8777)]

/-- uaeCoordinates[region] with the default fallback coordinate:
an unmapped region resolves to latitude 24.0, longitude 54.0. -/
def resolveRegionCoords (region : String) : ℚ × ℚ :=
  (List.lookup region uaeCoordinates).getD (24, 54)

/-! ## Geo heat geometry (HeatMap component) -/

/-- One heat-map input point. -/
structure HeatMapDataPoint where
  region : String
  country : String
  value : ℚ
  lat : ℚ
  lng : ℚ
  color : Option String := none
deriving DecidableEq

/-- Math.min over the values of the point set (defined on nonempty input,
which is the only case where the component draws anything). -/
def heatMinValue : List HeatMapDataPoint → ℚ
  | [] => 0
  | p :: ps => (ps.map (fun q => q.value)).foldl min p.value

/-- Math.max over the values of the point set. -/
def heatMaxValue : List HeatMapDataPoint → ℚ
  | [] => 0
  | p :: ps => (ps.map (fun q => q.value)).foldl max p.value

/-- Normalized position of a point's value in the dataset's value range,
with the all-equal case pinned to one half. -/
def heatNormalized (data : List HeatMapDataPoint) (p : HeatMapDataPoint) : ℚ :=
  if heatMaxValue data = heatMinValue data then 1 / 2
  else (p.value - heatMinValue data) / (heatMaxValue data - heatMinValue data)

/-- Marker radius: base 10000 meters plus the normalized value scaled over a
150000 meter span. -/
def heatRadius (data : List HeatMapDataPoint) (p : HeatMapDataPoint) : ℚ :=
  10000 + heatNormalized data p * 150000

/-- The fixed ten-color palette shared by the charts and the heat map. -/
def colorScale : List String :=
  ["#3B82F6", "#10B981", "#F59E0B", "#EF4444", "#8B5CF6",
   "#06B6D4", "#84CC16", "#F97316", "#EC4899", "#6366F1"]

/-- Palette color cycled by index modulo the palette length. -/
def paletteColor (i : ℕ) : String :=
  colorScale.getD (i % colorScale.length) ""

/-- Color of the map circle of the point at a given position of the data
array: an explicit point color, else the palette cycled by that position. -/
def circleColors (data : List HeatMapDataPoint) : List String :=
  data.enum.map (fun ip => ip.2.color.getD (paletteColor ip.1))

/-- The side table of the heat map: the points sorted descending by value. -/
def heatTableSorted (data : List HeatMapDataPoint) : List HeatMapDataPoint :=
  stableSort (fun a b => decide (b.value ≤ a.value)) data

/-- Row colors of the side table: an explicit point color, else the palette
cycled by the row's rank after the descending sort. -/
def tableColors (data : List HeatMapDataPoint) : List String :=
  (heatTableSorted data).enum.map (fun ip => ip.2.color.getD (paletteColor ip.1))

/-! ## Line-chart x scale (LineChart getPointPosition) with IEEE semantics -/

/-- A JavaScript number outcome: a finite value, NaN, or a signed infinity.
Finite values are exact rationals; the IEEE distinction between positive and
negative zero is not modelled (it does not affect these computations). -/
inductive JsNum where
  | num (q : ℚ)
  | nan
  | posInf
  | negInf
deriving DecidableEq

/-- IEEE addition on the modelled outcomes. -/
def JsNum.add : JsNum → JsNum → JsNum
  | num a, num b => num (a + b)
  | nan, _ => nan
  | _, nan => nan
  | posInf, negInf => nan
  | negInf, posInf => nan
  | posInf, _ => posInf
  | _, posInf => posInf
  | negInf, _ => negInf
  | _, negInf => negInf

/-- IEEE multiplication on the modelled outcomes. -/
def JsNum.mul : JsNum → JsNum → JsNum
  | num a, num b => num (a * b)
  | nan, _ => nan
  | _, nan => nan
  | posInf, posInf => posInf
  | posInf, negInf => negInf
  | negInf, posInf => negInf
  | negInf, negInf => posInf
  | posInf, num b => if b = 0 then nan else if 0 < b then posInf else negInf
  | num a, posInf => if a = 0 then nan else if 0 < a then posInf else negInf
  | negInf, num b => if b = 0 then nan else if 0 < b then negInf else posInf
  | num a, negInf => if a = 0 then nan else if 0 < a then negInf else posInf

/-- IEEE division on the modelled outcomes: zero over zero is NaN, a nonzero
value over zero is a signed infinity. -/
def JsNum.div : JsNum → JsNum → JsNum
  | num a, num b =>
    if b = 0 then (if a = 0 then nan else if 0 < a then posInf else negInf)
    else num (a / b)
  | nan, _ => nan
  | _, nan => nan
  | posInf, posInf => nan
  | posInf, negInf => nan
  | negInf, posInf => nan
  | negInf, negInf => nan
  | posInf, num b => if 0 ≤ b then posInf else negInf
  | negInf, num b => if 0 ≤ b then negInf else posInf
  | num _, posInf => num 0
  | num _, negInf => num 0

/-- Chart width constant of the line chart. -/
def lineChartWidth : ℚ := 600

/-- Padding constant of the line chart. -/
def lineChartPadding : ℚ := 80

/-- The x coordinate of getPointPosition for the label at the given ordinal
index out of numLabels union labels: padding plus index over numLabels minus
one, scaled by the inner width. The denominator is not guarded. -/
def getPointPositionX (numLabels index : ℕ) : JsNum :=
  JsNum.add (JsNum.num lineChartPadding)
    (JsNum.mul (JsNum.div (JsNum.num (index : ℚ)) (JsNum.num ((numLabels : ℚ) - 1)))
      (JsNum.num (lineChartWidth - 2 * lineChartPadding)))

/-- The y coordinate of getPointPosition: padding plus the value's distance
below the maximum over the y range (with the range-or-one guard), scaled by
the inner height. -/
def getPointPositionY (maxValue yAxisRange value chartHeight : ℚ) : JsNum :=
  JsNum.add (JsNum.num lineChartPadding)
    (JsNum.mul
      (JsNum.div (JsNum.num (maxValue - value))
        (JsNum.num (if yAxisRange = 0 then 1 else yAxisRange)))
      (JsNum.num (chartHeight - 2 * lineChartPadding)))

/-! ## Proof-level helper definitions -/

/-- Sum of the values of a clicks-by-key dictionary. -/
def sumVals (m : List (String × ℕ)) : ℕ :=
  (m.map (fun kv => kv.2)).sum

/-- The per-key residue of the device fold: folding the records of one key
over an optional accumulated entry. -/
def optFoldDevice (o : Option DevicePerformance) (rs : List DevicePerformance) :
    Option DevicePerformance :=
  rs.foldl (fun o d => some (applyDevice d (o.getD (freshDeviceEntry d.device)))) o

/-! ## Concrete datasets used to check the theorems on closed inputs -/

/-- A one-campaign dataset with one male and one female demographic record. -/
def demoCampaigns : List Campaign :=
  [{ spend := 100, revenue := 200,
     demographic_breakdown :=
       [⟨"Male", "18-24", ⟨1000, 30, 5⟩⟩, ⟨"Female", "25-34", ⟨500, 10, 2⟩⟩] }]

/-- A demographic record whose gender is neither male nor female. -/
def demoOther : DemographicBreakdown := ⟨"Other", "18-24", ⟨100, 10, 2⟩⟩

/-- Two campaigns that both report the device Mobile, with impressions 100
and 200, clicks 10 and 20, and traffic percentages 40 and 60. -/
def devCampaigns : List Campaign :=
  [{ device_performance := [⟨"Mobile", 100, 10, 2, 50, 80, 10, 20, 40⟩] },
   { device_performance := [⟨"Mobile", 200, 20, 4, 70, 120, 10, 20, 60⟩] }]

/-- One campaign whose weeks arrive out of chronological order. -/
def wk3Campaigns : List Campaign :=
  [{ weekly_performance :=
       [⟨"2024-01-08", "2024-01-14", 10, 20⟩,
        ⟨"2024-01-01", "2024-01-07", 5, 6⟩,
        ⟨"2024-01-15", "2024-01-21", 7, 8⟩] }]

/-- Heat points with values 10, 50 and 100. -/
def heatPointA : HeatMapDataPoint := ⟨"Dubai", "UAE", 10, 0, 0, none⟩

/-- Middle-valued heat point of the three-point example. -/
def heatPointB : HeatMapDataPoint := ⟨"Sharjah", "UAE", 50, 0, 0, none⟩

/-- Largest-valued heat point of the three-point example. -/
def heatPointC : HeatMapDataPoint := ⟨"Abu Dhabi", "UAE", 100, 0, 0, none⟩

/-- The three-point heat dataset with values 10, 50, 100. -/
def heatThreePoints : List HeatMapDataPoint := [heatPointA, heatPointB, heatPointC]

/-- A heat dataset whose values are all equal. -/
def heatFlatPoints : List HeatMapDataPoint :=
  [⟨"Ajman", "UAE", 7, 0, 0, none⟩, ⟨"Fujairah", "UAE", 7, 0, 0, none⟩]

/-- A two-point heat dataset given in ascending value order, so that the
descending table order differs from the insertion order. -/
def heatTwoPoints : List HeatMapDataPoint :=
  [⟨"Dubai", "UAE", 10, 0, 0, none⟩, ⟨"Abu Dhabi", "UAE", 100, 0, 0, none⟩]

/-- The aggregated mobile entry of the two-campaign device example. -/
def mobileAgg : DevicePerformance :=
  (List.lookup "mobile" (deviceAgg devCampaigns)).getD (freshDeviceEntry "")

/-! ## General lemmas about the dictionary and sorting models -/

/-- Association lookup at the head key. -/
theorem lookup_cons_self (k : String) (v : β) (tl : List (String × β)) :
    List.lookup k ((k, v) :: tl) = some v := by
  simp [List.lookup]

/-- Association lookup skips a head entry with a different key. -/
theorem lookup_cons_ne (q k : String) (v : β) (tl : List (String × β)) (h : q ≠ k) :
    List.lookup q ((k, v) :: tl) = List.lookup q tl := by
  have hb : (q == k) = false := beq_eq_false_iff_ne.mpr h
  simp [List.lookup, hb]

/-- Looking up after an upsert: the touched key sees the update applied to
its previous value or the initializer; other keys are unchanged. -/
theorem lookup_upsert (k q : String) (f : β → β) (init : β) (m : List (String × β)) :
    List.lookup q (upsert k f init m) =
      if q = k then some (f ((List.lookup q m).getD init)) else List.lookup q m := by
  induction m with
  | nil =>
    by_cases h : q = k
    · subst h
      simp [upsert, lookup_cons_self]
    · simp [upsert, lookup_cons_ne q k _ _ h, h]
  | cons hd tl ih =>
    obtain ⟨k0, v⟩ := hd
    by_cases h1 : k0 = k
    · subst h1
      by_cases h2 : q = k0
      · subst h2
        simp [upsert, lookup_cons_self]
      · simp [upsert, lookup_cons_ne q k0 _ _ h2, h2]
    · by_cases h2 : q = k0
      · subst h2
        simp [upsert, h1, lookup_cons_self]
      · simp [upsert, h1, lookup_cons_ne q k0 _ _ h2, ih]

/-- Adding clicks at one key raises the dictionary's value total by exactly
those clicks. -/
theorem sumVals_upsert_add (k : String) (c : ℕ) (m : List (String × ℕ)) :
    sumVals (upsert k (fun n => n + c) 0 m) = sumVals m + c := by
  induction m with
  | nil => simp [upsert, sumVals]
  | cons hd tl ih =>
    obtain ⟨k0, v⟩ := hd
    by_cases h : k0 = k
    · simp [upsert, h, sumVals]
      omega
    · simp [upsert, h, sumVals] at ih ⊢
      omega

/-- Stable insertion permutes to consing. -/
theorem stableInsert_perm (le : α → α → Bool) (x : α) (l : List α) :
    (stableInsert le x l).Perm (x :: l) := by
  induction l with
  | nil => simp [stableInsert]
  | cons y ys ih =>
    cases h : le y x with
    | true =>
      simp only [stableInsert, h, if_true]
      exact (ih.cons y).trans (List.Perm.swap x y ys)
    | false =>
      simp [stableInsert, h]

/-- The fold of stable insertions permutes to the accumulator followed by
the remaining input. -/
theorem foldl_stableInsert_perm (le : α → α → Bool) :
    ∀ (l acc : List α),
      (l.foldl (fun acc x => stableInsert le x acc) acc).Perm (acc ++ l) := by
  intro l
  induction l with
  | nil => intro acc; simp
  | cons x xs ih =>
    intro acc
    simp only [List.foldl_cons]
    have h1 := ih (stableInsert le x acc)
    have h2 : (stableInsert le x acc ++ xs).Perm ((x :: acc) ++ xs) :=
      (stableInsert_perm le x acc).append_right xs
    have h3 : ((x :: acc) ++ xs).Perm (acc ++ x :: xs) := List.perm_middle.symm
    exact (h1.trans h2).trans h3

/-- The stable sort is a permutation of its input. -/
theorem stableSort_perm (le : α → α → Bool) (l : List α) :
    (stableSort le l).Perm l := by
  simpa using foldl_stableInsert_perm le l []

/-- Membership is preserved by the stable sort. -/
theorem mem_stableSort (le : α → α → Bool) (l : List α) (x : α) :
    x ∈ stableSort le l ↔ x ∈ l :=
  (stableSort_perm le l).mem_iff

/-- A stable insertion into a list sorted by a total transitive boolean
relation is sorted. -/
theorem pairwise_stableInsert (le : α → α → Bool)
    (hTot : ∀ a b, le a b = true ∨ le b a = true)
    (hTrans : ∀ a b c, le a b = true → le b c = true → le a c = true)
    (x : α) (l : List α) (hl : l.Pairwise (fun a b => le a b = true)) :
    (stableInsert le x l).Pairwise (fun a b => le a b = true) := by
  induction l with
  | nil => simp [stableInsert]
  | cons y ys ih =>
    rcases List.pairwise_cons.mp hl with ⟨hy, hys⟩
    cases h : le y x with
    | true =>
      simp only [stableInsert, h, if_true]
      refine List.pairwise_cons.mpr ⟨?_, ih hys⟩
      intro z hz
      rcases List.mem_cons.mp ((stableInsert_perm le x ys).mem_iff.mp hz) with rfl | hz2
      · exact h
      · exact hy z hz2
    | false =>
      simp only [stableInsert, h, Bool.false_eq_true, if_false]
      refine List.pairwise_cons.mpr ⟨?_, hl⟩
      have hxy : le x y = true := by
        rcases hTot x y with h1 | h1
        · exact h1
        · rw [h1] at h; exact Bool.noConfusion h
      intro z hz
      rcases List.mem_cons.mp hz with rfl | hz2
      · exact hxy
      · exact hTrans x y z hxy (hy z hz2)

/-- The stable sort of any list by a total transitive boolean relation is
sorted with respect to it. -/
theorem pairwise_stableSort (le : α → α → Bool)
    (hTot : ∀ a b, le a b = true ∨ le b a = true)
    (hTrans : ∀ a b c, le a b = true → le b c = true → le a c = true)
    (l : List α) :
    (stableSort le l).Pairwise (fun a b => le a b = true) := by
  have main : ∀ (l acc : List α), acc.Pairwise (fun a b => le a b = true) →
      (l.foldl (fun acc x => stableInsert le x acc) acc).Pairwise
        (fun a b => le a b = true) := by
    intro l
    induction l with
    | nil => intro acc h; simpa using h
    | cons x xs ih =>
      intro acc h
      simp only [List.foldl_cons]
      exact ih _ (pairwise_stableInsert le hTot hTrans x acc h)
  exact main l [] (by simp)

/-- Folding the inner lists one by one is folding the flattened list. -/
theorem foldl_inner (g : α → List γ) (f : σ → γ → σ) :
    ∀ (l : List α) (s : σ),
      l.foldl (fun s a => (g a).foldl f s) s = (l.flatMap g).foldl f s := by
  intro l
  induction l with
  | nil => intro s; simp
  | cons a as ih => intro s; simp [List.foldl_append, ih]

/-! ## Lemmas about the demographic fold -/

/-- The dataset click total always grows by the record's clicks. -/
theorem demoStep_totalClicks (st : DemoState) (d : DemographicBreakdown) :
    (demoStep st d).totalClicks = st.totalClicks + d.performance.clicks := by
  simp only [demoStep]
  split
  · rfl
  split <;> rfl

/-- The age-group dictionary always receives the record's clicks. -/
theorem demoStep_ageGroupClicks (st : DemoState) (d : DemographicBreakdown) :
    (demoStep st d).ageGroupClicks =
      upsert d.age_group (fun n => n + d.performance.clicks) 0 st.ageGroupClicks := by
  simp only [demoStep]
  split
  · rfl
  split <;> rfl

/-- Value of sumVals on a cons cell. -/
theorem sumVals_cons (kv : String × ℕ) (m : List (String × ℕ)) :
    sumVals (kv :: m) = kv.2 + sumVals m := by
  simp [sumVals]

/-- Along the demographic fold, the click total and the value total of the
age-group dictionary both grow by the total clicks of the records folded. -/
theorem demoFoldList_totals :
    ∀ (l : List DemographicBreakdown) (st : DemoState),
      (l.foldl demoStep st).totalClicks
          = st.totalClicks + (l.map (fun d => d.performance.clicks)).sum ∧
      sumVals ((l.foldl demoStep st).ageGroupClicks)
          = sumVals st.ageGroupClicks + (l.map (fun d => d.performance.clicks)).sum := by
  intro l
  induction l with
  | nil => intro st; simp
  | cons d tl ih =>
    intro st
    simp only [List.foldl_cons, List.map_cons, List.sum_cons]
    rcases ih (demoStep st d) with ⟨h1, h2⟩
    constructor
    · rw [h1, demoStep_totalClicks]; omega
    · rw [h2, demoStep_ageGroupClicks, sumVals_upsert_add]; omega

/-- The nested demographic fold equals the fold over the flattened records. -/
theorem demoFold_eq_flat (campaigns : List Campaign) :
    demoFold campaigns
      = (campaigns.flatMap fun c => c.demographic_breakdown).foldl demoStep initDemoState :=
  foldl_inner (fun (c : Campaign) => c.demographic_breakdown) demoStep campaigns initDemoState

/-- The value total of the age-group dictionary equals the dataset-wide
click total: every record's clicks land in exactly one age group. -/
theorem demoFold_sumVals (campaigns : List Campaign) :
    sumVals ((demoFold campaigns).ageGroupClicks) = (demoFold campaigns).totalClicks := by
  rw [demoFold_eq_flat]
  rcases demoFoldList_totals
      (campaigns.flatMap fun c => c.demographic_breakdown) initDemoState with ⟨h1, h2⟩
  rw [h1, h2]
  simp [initDemoState, sumVals]

/-- Summing dataset-share allocations over a dictionary gives the total
scaled by the value total's share. -/
theorem sum_alloc (tS T : ℚ) :
    ∀ m : List (String × ℕ),
      ((m.map (fun kv => tS * ((kv.2 : ℚ) / T))).sum) = tS * ((sumVals m : ℚ) / T) := by
  intro m
  induction m with
  | nil => simp [sumVals]
  | cons hd tl ih =>
    rw [List.map_cons, List.sum_cons, ih, sumVals_cons]
    push_cast
    ring

/-! ## Claim C1: proportional allocation over age groups -/

/-- Auxiliary: under a positive dataset click total, summing the per-group
allocations of any total over the age-group dictionary returns the total. -/
theorem ageGroup_alloc_sum (campaigns : List Campaign)
    (hT : 0 < (demoFold campaigns).totalClicks) (t : ℚ) :
    (((demoFold campaigns).ageGroupClicks).map
        (fun kv => t * ((kv.2 : ℚ) / ((demoFold campaigns).totalClicks : ℚ)))).sum = t := by
  rw [sum_alloc, demoFold_sumVals, div_self, mul_one]
  exact Nat.cast_ne_zero.mpr (Nat.pos_iff_ne_zero.mp hT)

/-- C1: for every campaign sequence, each age group's allocated spend and
revenue are the dataset totals scaled by the group's click share; when the
dataset click total is positive the allocations sum back exactly to the
totals (exactly, in the rational model), and when the click total is zero
every group's allocated spend and revenue are zero. -/
theorem C1_proportional_allocation (campaigns : List Campaign) :
    (0 < (demoFold campaigns).totalClicks →
      (∀ row ∈ (demographicMetrics campaigns).ageGroupData,
          row.spend = totalSpend campaigns *
            ((row.clicks : ℚ) / ((demoFold campaigns).totalClicks : ℚ)) ∧
          row.revenue = totalRevenue campaigns *
            ((row.clicks : ℚ) / ((demoFold campaigns).totalClicks : ℚ))) ∧
      ((demographicMetrics campaigns).ageGroupData.map (fun r => r.spend)).sum
          = totalSpend campaigns ∧
      ((demographicMetrics campaigns).ageGroupData.map (fun r => r.revenue)).sum
          = totalRevenue campaigns) ∧
    ((demoFold campaigns).totalClicks = 0 →
      ∀ row ∈ (demographicMetrics campaigns).ageGroupData,
        row.spend = 0 ∧ row.revenue = 0) := by
  have hag : (demographicMetrics campaigns).ageGroupData = ageGroupData campaigns := rfl
  constructor
  · intro hT
    refine ⟨?_, ?_, ?_⟩
    · intro row hrow
      rw [hag] at hrow
      simp only [ageGroupData, hT, if_true] at hrow
      rw [mem_stableSort] at hrow
      obtain ⟨kv, hkv, hrow⟩ := List.mem_map.mp hrow
      subst hrow
      exact ⟨rfl, rfl⟩
    · rw [hag]
      simp only [ageGroupData, hT, if_true]
      rw [((stableSort_perm _ _).map (fun r : AgeGroupRow => r.spend)).sum_eq]
      rw [List.map_map]
      exact ageGroup_alloc_sum campaigns hT (totalSpend campaigns)
    · rw [hag]
      simp only [ageGroupData, hT, if_true]
      rw [((stableSort_perm _ _).map (fun r : AgeGroupRow => r.revenue)).sum_eq]
      rw [List.map_map]
      exact ageGroup_alloc_sum campaigns hT (totalRevenue campaigns)
  · intro hT0 row hrow
    rw [hag] at hrow
    simp only [ageGroupData, hT0] at hrow
    rw [mem_stableSort] at hrow
    obtain ⟨kv, hkv, hrow⟩ := List.mem_map.mp hrow
    subst hrow
    simp

/-- Check of C1 on closed inputs: a dataset with forty clicks across two age
groups gets its full 100 spend and 200 revenue allocated, and the empty
dataset has a zero click total with no allocation. -/
theorem C1_proportional_allocation_witness :
    (((demographicMetrics demoCampaigns).ageGroupData.map (fun r => r.spend)).sum
        = totalSpend demoCampaigns ∧
      totalSpend demoCampaigns = 100) ∧
    (((demographicMetrics demoCampaigns).ageGroupData.map (fun r => r.revenue)).sum
        = totalRevenue demoCampaigns ∧
      totalRevenue demoCampaigns = 200) ∧
    (∀ row ∈ (demographicMetrics ([] : List Campaign)).ageGroupData,
      row.spend = 0 ∧ row.revenue = 0) := by
  have hpos : 0 < (demoFold demoCampaigns).totalClicks := by decide
  have h1 := (C1_proportional_allocation demoCampaigns).1 hpos
  have h2 := (C1_proportional_allocation ([] : List Campaign)).2 (by decide)
  refine ⟨⟨h1.2.1, ?_⟩, ⟨h1.2.2, ?_⟩, h2⟩
  · norm_num [totalSpend, demoCampaigns]
  · norm_num [totalRevenue, demoCampaigns]

/-! ## Claim C3: the rate primitives are total with a zero-denominator policy -/

/-- C3: for all non-negative inputs, ctr is clicks over impressions times one
hundred when impressions are positive and zero when impressions are zero, and
likewise conversionRate over clicks; both are total functions into the
rationals (no NaN, no error), with the four concrete spec examples. -/
theorem C3_rate_primitives (c i v k : ℚ)
    (_hc : 0 ≤ c) (_hi : 0 ≤ i) (_hv : 0 ≤ v) (_hk : 0 ≤ k) :
    (0 < i → ctr c i = c / i * 100) ∧
    (i = 0 → ctr c i = 0) ∧
    (0 < k → conversionRate v k = v / k * 100) ∧
    (k = 0 → conversionRate v k = 0) ∧
    ctr 0 0 = 0 ∧ ctr 50 100 = 50 ∧
    conversionRate 0 0 = 0 ∧ conversionRate 10 20 = 50 := by
  refine ⟨fun h => by simp [ctr, h], fun h => by simp [ctr, h],
    fun h => by simp [conversionRate, h], fun h => by simp [conversionRate, h],
    by norm_num [ctr], by norm_num [ctr],
    by norm_num [conversionRate], by norm_num [conversionRate]⟩

/-- Check of C3 on closed inputs, including both branches of each guard. -/
theorem C3_rate_primitives_witness :
    ctr 50 100 = 50 / 100 * 100 ∧ conversionRate 10 20 = 10 / 20 * 100 ∧
    ctr 0 0 = 0 ∧ conversionRate 0 0 = 0 := by
  have h := C3_rate_primitives 50 100 10 20 (by norm_num) (by norm_num) (by norm_num) (by norm_num)
  exact ⟨h.1 (by norm_num), h.2.2.1 (by norm_num), h.2.2.2.2.1, h.2.2.2.2.2.2.1⟩

/-! ## Claim C7: genders other than male and female -/

/-- C7: a demographic record whose lower-cased gender is neither male nor
female leaves the per-gender click totals and both per-gender age-group
tables untouched, while its clicks still enter the dataset-wide click total
(the denominator of the allocation) and the age-group click dictionary. -/
theorem C7_unknown_gender_excluded (st : DemoState) (d : DemographicBreakdown)
    (hm : jsToLower d.gender ≠ "male") (hf : jsToLower d.gender ≠ "female") :
    (demoStep st d).maleClicks = st.maleClicks ∧
    (demoStep st d).femaleClicks = st.femaleClicks ∧
    (demoStep st d).maleAgeGroupData = st.maleAgeGroupData ∧
    (demoStep st d).femaleAgeGroupData = st.femaleAgeGroupData ∧
    (demoStep st d).totalClicks = st.totalClicks + d.performance.clicks ∧
    List.lookup d.age_group (demoStep st d).ageGroupClicks =
      some ((List.lookup d.age_group st.ageGroupClicks).getD 0 + d.performance.clicks) := by
  simp [demoStep, hm, hf, lookup_upsert]

/-- Check of C7 on closed inputs: the gender Other with ten clicks. -/
theorem C7_unknown_gender_excluded_witness :
    jsToLower demoOther.gender ≠ "male" ∧
    (demoStep initDemoState demoOther).maleClicks = 0 ∧
    (demoStep initDemoState demoOther).femaleClicks = 0 ∧
    (demoStep initDemoState demoOther).totalClicks = 10 ∧
    List.lookup "18-24" (demoStep initDemoState demoOther).ageGroupClicks = some 10 := by
  obtain ⟨h1, h2, h3, h4, h5, h6⟩ :=
    C7_unknown_gender_excluded initDemoState demoOther (by decide) (by decide)
  exact ⟨by decide, h1.trans rfl, h2.trans rfl, h5.trans rfl, by simpa using h6⟩

/-! ## Lemmas about the device fold -/

/-- The last-record traffic percentage steps through a cons cell. -/
theorem lastPot_cons :
    ∀ (tl : List DevicePerformance) (d : DevicePerformance) (dflt : ℚ),
      lastPot (d :: tl) dflt = lastPot tl d.percentage_of_traffic := by
  intro tl
  induction tl with
  | nil => intro d dflt; simp [lastPot]
  | cons x xs ih =>
    intro d dflt
    have h1 : lastPot (d :: x :: xs) dflt = lastPot (x :: xs) dflt := by
      simp only [lastPot, List.getLast?_cons_cons]
    rw [h1, ih x dflt, ← ih x d.percentage_of_traffic]

/-- Looking up along the per-key residue fold: the entry at a key of the
device fold is the residue fold of the records that match the key. -/
theorem lookup_deviceFold (key : String) :
    ∀ (rs : List DevicePerformance) (m : List (String × DevicePerformance)),
      List.lookup key (rs.foldl deviceStep m) =
        optFoldDevice (List.lookup key m)
          (rs.filter (fun d => decide (jsToLower d.device = key))) := by
  intro rs
  induction rs with
  | nil => intro m; simp [optFoldDevice]
  | cons d tl ih =>
    intro m
    simp only [List.foldl_cons]
    rw [ih]
    by_cases hk : jsToLower d.device = key
    · rw [List.filter_cons_of_pos (by simpa using hk)]
      have hstep : List.lookup key (deviceStep m d)
          = some (applyDevice d ((List.lookup key m).getD (freshDeviceEntry d.device))) := by
        unfold deviceStep
        rw [lookup_upsert, if_pos hk.symm]
      rw [hstep]
      rfl
    · rw [List.filter_cons_of_neg (by simpa using hk)]
      have hstep : List.lookup key (deviceStep m d) = List.lookup key m := by
        unfold deviceStep
        rw [lookup_upsert, if_neg (fun h => hk h.symm)]
      rw [hstep]

/-- Accumulating one record onto an optional entry. -/
theorem optFoldDevice_cons (o : Option DevicePerformance) (d : DevicePerformance)
    (tl : List DevicePerformance) :
    optFoldDevice o (d :: tl)
      = optFoldDevice (some (applyDevice d (o.getD (freshDeviceEntry d.device)))) tl := rfl

/-- Characterization of the per-key residue fold: counters, spend and revenue
are the initial entry's values plus the record sums; the traffic percentage is
that of the last record, defaulting to the initial entry's value. -/
theorem optFoldDevice_spec :
    ∀ (rs : List DevicePerformance) (o : Option DevicePerformance) (e : DevicePerformance),
      optFoldDevice o rs = some e →
      e.impressions
          = (o.map (fun x => x.impressions)).getD 0 + (rs.map (fun d => d.impressions)).sum ∧
      e.clicks = (o.map (fun x => x.clicks)).getD 0 + (rs.map (fun d => d.clicks)).sum ∧
      e.conversions
          = (o.map (fun x => x.conversions)).getD 0 + (rs.map (fun d => d.conversions)).sum ∧
      e.spend = (o.map (fun x => x.spend)).getD 0 + (rs.map (fun d => d.spend)).sum ∧
      e.revenue = (o.map (fun x => x.revenue)).getD 0 + (rs.map (fun d => d.revenue)).sum ∧
      e.percentage_of_traffic
          = lastPot rs ((o.map (fun x => x.percentage_of_traffic)).getD 0) := by
  intro rs
  induction rs with
  | nil =>
    intro o e h
    cases o with
    | none => exact absurd h (by simp [optFoldDevice])
    | some e0 =>
      have he : e0 = e := by simpa [optFoldDevice] using h
      subst he
      simp [lastPot]
  | cons d tl ih =>
    intro o e h
    rw [optFoldDevice_cons] at h
    obtain ⟨h1, h2, h3, h4, h5, h6⟩ := ih _ e h
    have happ : ∀ x : DevicePerformance,
        (applyDevice d x).impressions = x.impressions + d.impressions ∧
        (applyDevice d x).clicks = x.clicks + d.clicks ∧
        (applyDevice d x).conversions = x.conversions + d.conversions ∧
        (applyDevice d x).spend = x.spend + d.spend ∧
        (applyDevice d x).revenue = x.revenue + d.revenue ∧
        (applyDevice d x).percentage_of_traffic = d.percentage_of_traffic :=
      fun x => ⟨rfl, rfl, rfl, rfl, rfl, rfl⟩
    refine ⟨?_, ?_, ?_, ?_, ?_, ?_⟩
    · rw [h1]
      cases o <;> (simp [applyDevice, freshDeviceEntry]; try omega)
    · rw [h2]
      cases o <;> (simp [applyDevice, freshDeviceEntry]; try omega)
    · rw [h3]
      cases o <;> (simp [applyDevice, freshDeviceEntry]; try omega)
    · rw [h4]
      cases o <;> (simp [applyDevice, freshDeviceEntry]; try ring)
    · rw [h5]
      cases o <;> (simp [applyDevice, freshDeviceEntry]; try ring)
    · rw [h6, lastPot_cons]
      cases o <;> simp [applyDevice]

/-- Lookup commutes with mapping over the values of an association list. -/
theorem lookup_map_value (f : β → γ) (k : String) :
    ∀ m : List (String × β),
      List.lookup k (m.map (fun kv => (kv.1, f kv.2))) = (List.lookup k m).map f := by
  intro m
  induction m with
  | nil => simp
  | cons hd tl ih =>
    obtain ⟨k0, v⟩ := hd
    by_cases h : k = k0
    · subst h
      simp only [List.map_cons]
      rw [lookup_cons_self, lookup_cons_self]
      rfl
    · simp only [List.map_cons]
      rw [lookup_cons_ne k k0 (f v) _ h, lookup_cons_ne k k0 v _ h, ih]

/-- The entry at a key of the device aggregation is the recomputation pass
applied to the residue fold of the records matching that key. -/
theorem deviceAgg_lookup (campaigns : List Campaign) (key : String) :
    List.lookup key (deviceAgg campaigns)
      = (optFoldDevice none (recordsFor key campaigns)).map recalcDevice := by
  unfold deviceAgg
  rw [lookup_map_value]
  have hflat : campaigns.foldl (fun m c => c.device_performance.foldl deviceStep m) []
      = (deviceRecords campaigns).foldl deviceStep [] :=
    foldl_inner (fun (c : Campaign) => c.device_performance) deviceStep campaigns []
  rw [hflat, lookup_deviceFold]
  rfl

/-! ## Claim C4: device aggregation sums counters and recomputes rates -/

/-- C4: for every campaign sequence and every key of the aggregated device
dictionary, the entry's impressions, clicks, conversions, spend and revenue
are the sums over all sub-records of all campaigns whose lower-cased device
label equals the key, and its CTR and conversion rate are recomputed from
those summed totals. -/
theorem C4_device_aggregation (campaigns : List Campaign) (key : String)
    (e : DevicePerformance) (h : List.lookup key (deviceAgg campaigns) = some e) :
    e.impressions = ((recordsFor key campaigns).map (fun d => d.impressions)).sum ∧
    e.clicks = ((recordsFor key campaigns).map (fun d => d.clicks)).sum ∧
    e.conversions = ((recordsFor key campaigns).map (fun d => d.conversions)).sum ∧
    e.spend = ((recordsFor key campaigns).map (fun d => d.spend)).sum ∧
    e.revenue = ((recordsFor key campaigns).map (fun d => d.revenue)).sum ∧
    e.ctr = (if 0 < e.impressions then (e.clicks : ℚ) / (e.impressions : ℚ) * 100 else 0) ∧
    e.conversion_rate
      = (if 0 < e.clicks then (e.conversions : ℚ) / (e.clicks : ℚ) * 100 else 0) := by
  rw [deviceAgg_lookup] at h
  obtain ⟨e0, he0, he⟩ := Option.map_eq_some'.mp h
  obtain ⟨h1, h2, h3, h4, h5, h6⟩ := optFoldDevice_spec _ _ _ he0
  subst he
  refine ⟨by simpa using h1, by simpa using h2, by simpa using h3,
    by simpa using h4, by simpa using h5, ?_, ?_⟩
  · show ctr (e0.clicks : ℚ) (e0.impressions : ℚ) = _
    simp [ctr, recalcDevice, Nat.cast_pos]
  · show conversionRate (e0.conversions : ℚ) (e0.clicks : ℚ) = _
    simp [conversionRate, recalcDevice, Nat.cast_pos]

/-- Check of C4 on closed inputs: two campaigns reporting Mobile with
impressions 100 and 200 and clicks 10 and 20 aggregate to impressions 300,
clicks 30 and a recomputed CTR of 10, not the average of per-campaign CTRs. -/
theorem C4_device_aggregation_witness :
    List.lookup "mobile" (deviceAgg devCampaigns) = some mobileAgg ∧
    mobileAgg.impressions = 300 ∧ mobileAgg.clicks = 30 ∧
    mobileAgg.impressions
      = ((recordsFor "mobile" devCampaigns).map (fun d => d.impressions)).sum ∧
    mobileAgg.ctr = 10 := by
  have hs : (List.lookup "mobile" (deviceAgg devCampaigns)).isSome = true := by decide
  obtain ⟨v, hv⟩ := Option.isSome_iff_exists.mp hs
  have h : List.lookup "mobile" (deviceAgg devCampaigns) = some mobileAgg := by
    rw [hv]
    simp [mobileAgg, hv]
  have hth := C4_device_aggregation devCampaigns "mobile" mobileAgg h
  have hi : mobileAgg.impressions = 300 := by decide
  have hc : mobileAgg.clicks = 30 := by decide
  have hctr := hth.2.2.2.2.2.1
  rw [hi, hc] at hctr
  exact ⟨h, hi, hc, hi.symm ▸ hth.1, hctr.trans (by norm_num)⟩

/-! ## Claim C5: traffic percentage is last-write-wins, counters are summed -/

/-- C5: for every campaign sequence and every key of the aggregated device
dictionary, the entry's traffic percentage is not summed: it is the traffic
percentage of the last sub-record with that key in iteration order, while the
counters, spend and revenue of the same entry are the sums over those
sub-records. -/
theorem C5_traffic_last_write_wins (campaigns : List Campaign) (key : String)
    (e : DevicePerformance) (h : List.lookup key (deviceAgg campaigns) = some e) :
    e.percentage_of_traffic = lastPot (recordsFor key campaigns) 0 ∧
    e.impressions = ((recordsFor key campaigns).map (fun d => d.impressions)).sum ∧
    e.clicks = ((recordsFor key campaigns).map (fun d => d.clicks)).sum ∧
    e.conversions = ((recordsFor key campaigns).map (fun d => d.conversions)).sum ∧
    e.spend = ((recordsFor key campaigns).map (fun d => d.spend)).sum ∧
    e.revenue = ((recordsFor key campaigns).map (fun d => d.revenue)).sum := by
  rw [deviceAgg_lookup] at h
  obtain ⟨e0, he0, he⟩ := Option.map_eq_some'.mp h
  obtain ⟨h1, h2, h3, h4, h5, h6⟩ := optFoldDevice_spec _ _ _ he0
  subst he
  exact ⟨by simpa using h6, by simpa using h1, by simpa using h2,
    by simpa using h3, by simpa using h4, by simpa using h5⟩

/-- Check of C5 on closed inputs: Mobile records with traffic percentages 40
then 60 aggregate to a traffic percentage of exactly 60, the last-seen value,
while the impressions of the same entry are the sum 300. -/
theorem C5_traffic_last_write_wins_witness :
    mobileAgg.percentage_of_traffic = lastPot (recordsFor "mobile" devCampaigns) 0 ∧
    mobileAgg.percentage_of_traffic = 60 ∧
    mobileAgg.impressions = 300 := by
  have hs : (List.lookup "mobile" (deviceAgg devCampaigns)).isSome = true := by decide
  obtain ⟨v, hv⟩ := Option.isSome_iff_exists.mp hs
  have h : List.lookup "mobile" (deviceAgg devCampaigns) = some mobileAgg := by
    rw [hv]
    simp [mobileAgg, hv]
  have hth := C5_traffic_last_write_wins devCampaigns "mobile" mobileAgg h
  have hlast : lastPot (recordsFor "mobile" devCampaigns) 0 = 60 := by
    simp [lastPot, recordsFor, deviceRecords, devCampaigns]
    decide
  exact ⟨hth.1, hth.1.trans hlast, by decide⟩

/-! ## Claim C6: the weekly series is sorted ascending by parsed start date -/

/-- The sorted weekly dictionary values are pairwise ascending in the parsed
start date of their labels. -/
theorem sortedWeeks_pairwise (campaigns : List Campaign) :
    (sortedWeeks campaigns).Pairwise
      (fun a b => dateMs (weekStartOf a.weekLabel) ≤ dateMs (weekStartOf b.weekLabel)) := by
  unfold sortedWeeks
  refine List.Pairwise.imp ?_ (pairwise_stableSort _ ?_ ?_
    ((weeklyPairs campaigns).map (fun kv => kv.2)))
  · intro a b hab
    exact of_decide_eq_true hab
  · intro a b
    rcases le_total (dateMs (weekStartOf a.weekLabel)) (dateMs (weekStartOf b.weekLabel)) with h | h
    · exact Or.inl (decide_eq_true h)
    · exact Or.inr (decide_eq_true h)
  · intro a b c h1 h2
    exact decide_eq_true (le_trans (of_decide_eq_true h1) (of_decide_eq_true h2))

/-- C6: for every campaign sequence, both weekly chart series come out
pairwise ascending in the parsed week-start date of their labels, and the
concrete out-of-order example with starts 2024-01-08, 2024-01-01, 2024-01-15
renders in the order 2024-01-01, 2024-01-08, 2024-01-15. -/
theorem C6_weekly_sorted_ascending (campaigns : List Campaign) :
    (weeklySpendData campaigns).Pairwise (fun p q => dateMs p.label ≤ dateMs q.label) ∧
    (weeklyRevenueData campaigns).Pairwise (fun p q => dateMs p.label ≤ dateMs q.label) ∧
    (weeklySpendData wk3Campaigns).map (fun p => p.label)
      = ["2024-01-01", "2024-01-08", "2024-01-15"] ∧
    (weeklyRevenueData wk3Campaigns).map (fun p => p.label)
      = ["2024-01-01", "2024-01-08", "2024-01-15"] := by
  refine ⟨List.pairwise_map.mpr ?_, List.pairwise_map.mpr ?_, by decide, by decide⟩
  · exact sortedWeeks_pairwise campaigns
  · exact sortedWeeks_pairwise campaigns

/-! ## Claim C8: heat-map value normalization and radius scaling -/

/-- A fold of min is bounded by its initial value. -/
theorem foldl_min_le_init (l : List ℚ) (a : ℚ) : l.foldl min a ≤ a := by
  induction l generalizing a with
  | nil => exact le_rfl
  | cons b tl ih => exact le_trans (ih (min a b)) (min_le_left a b)

/-- A fold of min is bounded by every member. -/
theorem foldl_min_le_mem (l : List ℚ) (a x : ℚ) (hx : x ∈ l) : l.foldl min a ≤ x := by
  induction l generalizing a with
  | nil => cases hx
  | cons b tl ih =>
    rcases List.mem_cons.mp hx with rfl | hx2
    · exact le_trans (foldl_min_le_init tl (min a x)) (min_le_right a x)
    · exact ih (min a b) hx2

/-- A fold of max dominates its initial value. -/
theorem init_le_foldl_max (l : List ℚ) (a : ℚ) : a ≤ l.foldl max a := by
  induction l generalizing a with
  | nil => exact le_rfl
  | cons b tl ih => exact le_trans (le_max_left a b) (ih (max a b))

/-- A fold of max dominates every member. -/
theorem mem_le_foldl_max (l : List ℚ) (a x : ℚ) (hx : x ∈ l) : x ≤ l.foldl max a := by
  induction l generalizing a with
  | nil => cases hx
  | cons b tl ih =>
    rcases List.mem_cons.mp hx with rfl | hx2
    · exact le_trans (le_max_right a x) (init_le_foldl_max tl (max a x))
    · exact ih (max a b) hx2

/-- The dataset minimum bounds every member's value. -/
theorem heatMin_le_of_mem (data : List HeatMapDataPoint) (p : HeatMapDataPoint)
    (hp : p ∈ data) : heatMinValue data ≤ p.value := by
  cases data with
  | nil => cases hp
  | cons q ps =>
    rcases List.mem_cons.mp hp with rfl | hp2
    · exact foldl_min_le_init _ _
    · exact foldl_min_le_mem _ _ _ (List.mem_map_of_mem (fun r => r.value) hp2)

/-- Every member's value is bounded by the dataset maximum. -/
theorem le_heatMax_of_mem (data : List HeatMapDataPoint) (p : HeatMapDataPoint)
    (hp : p ∈ data) : p.value ≤ heatMaxValue data := by
  cases data with
  | nil => cases hp
  | cons q ps =>
    rcases List.mem_cons.mp hp with rfl | hp2
    · exact init_le_foldl_max _ _
    · exact mem_le_foldl_max _ _ _ (List.mem_map_of_mem (fun r => r.value) hp2)

/-- C8: on a non-empty point set, each point's normalized value follows the
guarded range formula (one half when the range is degenerate), its radius is
the affine map of base 10000 and span 150000 applied to that value, radii are
monotone in the point values (so the largest value gets the largest radius
and the smallest the smallest), and an all-equal dataset gives every point
the identical mid-range radius 85000. -/
theorem C8_heat_radius (data : List HeatMapDataPoint) (hne : data ≠ []) :
    (∀ p ∈ data,
      heatNormalized data p =
        (if heatMaxValue data = heatMinValue data then 1 / 2
          else (p.value - heatMinValue data) / (heatMaxValue data - heatMinValue data)) ∧
      heatRadius data p = 10000 + heatNormalized data p * 150000) ∧
    (∀ p ∈ data, ∀ q ∈ data, p.value ≤ q.value → heatRadius data p ≤ heatRadius data q) ∧
    (heatMaxValue data = heatMinValue data → ∀ p ∈ data, heatRadius data p = 85000) := by
  refine ⟨fun p _ => ⟨rfl, rfl⟩, ?_, ?_⟩
  · intro p hp q hq hpq
    by_cases heq : heatMaxValue data = heatMinValue data
    · simp [heatRadius, heatNormalized, heq]
    · have hrange : 0 < heatMaxValue data - heatMinValue data := by
        obtain ⟨r, rs, rfl⟩ : ∃ r rs, data = r :: rs := by
          cases data with
          | nil => exact absurd rfl hne
          | cons r rs => exact ⟨r, rs, rfl⟩
        have h1 : heatMinValue (r :: rs) ≤ r.value :=
          heatMin_le_of_mem _ r (List.mem_cons_self r rs)
        have h2 : r.value ≤ heatMaxValue (r :: rs) :=
          le_heatMax_of_mem _ r (List.mem_cons_self r rs)
        rcases lt_or_eq_of_le (le_trans h1 h2) with h | h
        · linarith
        · exact absurd h.symm heq
      have hnum : p.value - heatMinValue data ≤ q.value - heatMinValue data := by linarith
      have ht : heatNormalized data p ≤ heatNormalized data q := by
        simp only [heatNormalized, heq, if_false]
        exact div_le_div_of_nonneg_right hnum hrange.le
      simp only [heatRadius]
      nlinarith
  · intro heq p _
    simp [heatRadius, heatNormalized, heq]
    norm_num

/-- Check of C8 on closed inputs: values 10, 50, 100 give radii 10000,
85000 and 160000 with the largest value largest; the all-equal dataset gives
both points the identical radius 85000. -/
theorem C8_heat_radius_witness :
    heatThreePoints ≠ [] ∧
    heatRadius heatThreePoints heatPointA ≤ heatRadius heatThreePoints heatPointC ∧
    heatRadius heatThreePoints heatPointB ≤ heatRadius heatThreePoints heatPointC ∧
    heatRadius heatThreePoints heatPointA = 10000 ∧
    heatRadius heatThreePoints heatPointB = 10000 + (40 / 90 : ℚ) * 150000 ∧
    heatRadius heatThreePoints heatPointC = 160000 ∧
    heatMaxValue heatFlatPoints = heatMinValue heatFlatPoints ∧
    (∀ p ∈ heatFlatPoints, heatRadius heatFlatPoints p = 85000) := by
  have h3 := C8_heat_radius heatThreePoints (by simp [heatThreePoints])
  have hflat := C8_heat_radius heatFlatPoints (by simp [heatFlatPoints])
  have hminmax : heatMinValue heatThreePoints = 10 ∧ heatMaxValue heatThreePoints = 100 := by
    constructor <;> norm_num [heatMinValue, heatMaxValue, heatThreePoints,
      heatPointA, heatPointB, heatPointC, min_def, max_def]
  have hflat_eq : heatMaxValue heatFlatPoints = heatMinValue heatFlatPoints := by
    norm_num [heatMinValue, heatMaxValue, heatFlatPoints, min_def, max_def]
  have hA : heatPointA ∈ heatThreePoints := by simp [heatThreePoints]
  have hB : heatPointB ∈ heatThreePoints := by simp [heatThreePoints]
  have hC : heatPointC ∈ heatThreePoints := by simp [heatThreePoints]
  have hne : heatMaxValue heatThreePoints ≠ heatMinValue heatThreePoints := by
    rw [hminmax.1, hminmax.2]; norm_num
  refine ⟨by simp [heatThreePoints],
    h3.2.1 heatPointA hA heatPointC hC (by norm_num [heatPointA, heatPointC]),
    h3.2.1 heatPointB hB heatPointC hC (by norm_num [heatPointB, heatPointC]),
    ?_, ?_, ?_, hflat_eq, hflat.2.2 hflat_eq⟩
  · simp only [heatRadius, heatNormalized, hne, if_false, hminmax.1, hminmax.2]
    norm_num [heatPointA]
  · simp only [heatRadius, heatNormalized, hne, if_false, hminmax.1, hminmax.2]
    norm_num [heatPointB]
  · simp only [heatRadius, heatNormalized, hne, if_false, hminmax.1, hminmax.2]
    norm_num [heatPointC]

/-! ## Claim C9: unknown regions fall back to the default coordinate -/

/-- C9: any region label absent from the static lookup table resolves to the
default fallback coordinate, latitude 24.0 and longitude 54.0; resolution is
a total function and never fails. -/
theorem C9_unknown_region_fallback (region : String)
    (h : List.lookup region uaeCoordinates = none) :
    resolveRegionCoords region = (24, 54) := by
  simp [resolveRegionCoords, h]

/-- Check of C9 on a closed input: the region Gotham is not in the table and
resolves to the default coordinate. -/
theorem C9_unknown_region_fallback_witness :
    List.lookup "Gotham" uaeCoordinates = none ∧
    resolveRegionCoords "Gotham" = (24, 54) := by
  have h : List.lookup "Gotham" uaeCoordinates = none := by decide
  exact ⟨h, C9_unknown_region_fallback "Gotham" h⟩

/-! ## Claim C10: map-circle colors and table-row colors disagree -/

/-- C10: there is a heat-map input without explicit point colors and with
values not already descending on which a point's map circle and its side
table row show different palette colors: the circle cycles the palette by
the point's original position, the table row by its rank after the
descending-by-value sort. The point with value 10 sits at position 0 of the
input (circle color palette 0) but at row 1 of the table (row color
palette 1). -/
theorem C10_circle_table_color_mismatch :
    (heatTableSorted heatTwoPoints).map (fun p => p.region) = ["Abu Dhabi", "Dubai"] ∧
    (circleColors heatTwoPoints).get? 0 = some "#3B82F6" ∧
    (tableColors heatTwoPoints).get? 1 = some "#10B981" ∧
    ("#3B82F6" : String) ≠ "#10B981" := by
  refine ⟨by decide, by decide, by decide, by decide⟩

/-! ## Claim C2: the single-label x scale divides by zero -/

/-- C2: with exactly one union label the x-coordinate computation divides
zero by zero and yields NaN rather than the left padding edge; with two or
more labels the same computation is finite (index 0 lands on the left
padding edge, the last index on the right edge). The guard the specification
requires is absent from the code. -/
theorem C2_single_label_x_is_nan :
    getPointPositionX 1 0 = JsNum.nan ∧
    getPointPositionX 1 0 ≠ JsNum.num lineChartPadding ∧
    getPointPositionX 2 0 = JsNum.num 80 ∧
    getPointPositionX 2 1 = JsNum.num 520 := by
  have h : getPointPositionX 1 0 = JsNum.nan := by
    norm_num [getPointPositionX, JsNum.div, JsNum.mul, JsNum.add]
  refine ⟨h, ?_, ?_, ?_⟩
  · rw [h]; simp
  · norm_num [getPointPositionX, JsNum.div, JsNum.mul, JsNum.add,
      lineChartWidth, lineChartPadding]
  · norm_num [getPointPositionX, JsNum.div, JsNum.mul, JsNum.add,
      lineChartWidth, lineChartPadding]
